import Mathlib

/-!
Shallow embedding of the execution runtime of the synthetic-app simulator:
the error/rate-limit simulator (src/core/errors/simulator.py), the state
engine (src/core/state/engine.py) and the action-execution orchestrator
(src/core/app_runtime.py), together with proofs of the behavioural claims
about them.

Python dictionaries are modelled as association lists with unique keys:
insertion replaces the first binding of the key (or appends), lookup returns
the first binding.  Wall-clock instants (time.time(), datetime.now()) are
rationals supplied explicitly to each operation; random.random() draws are an
explicit sequence of rationals.
-/

namespace ZapSim

/-- Lookup of a key in an association list (Python `d[k]` / `d.get(k)`):
returns the first binding. -/
def dlookup {α : Type} (d : List (String × α)) (k : String) : Option α :=
  match d with
  | [] => none
  | (k', v) :: rest => if k' = k then some v else dlookup rest k

/-- Insertion into an association list (Python `d[k] = v`): replaces the
first binding of `k`, or appends a new binding. -/
def dinsert {α : Type} (d : List (String × α)) (k : String) (v : α) : List (String × α) :=
  match d with
  | [] => [(k, v)]
  | (k', v') :: rest => if k' = k then (k, v) :: rest else (k', v') :: dinsert rest k v

/-- Removal of a key (Python `d.pop(k, None)`; a dict has at most one binding
per key, on our lists every binding of `k` is dropped). -/
def dremove {α : Type} (d : List (String × α)) (k : String) : List (String × α) :=
  match d with
  | [] => []
  | (k', v) :: rest => if k' = k then dremove rest k else (k', v) :: dremove rest k

/-- Right-biased merge (Python `d.update(u)` and `{**d, **u}`): the bindings
of `u` are inserted into `d` in order, later ones winning. -/
def dmerge {α : Type} (d u : List (String × α)) : List (String × α) :=
  u.foldl (fun acc kv => dinsert acc kv.1 kv.2) d

/-- Keys of an association list. -/
def dkeys {α : Type} (d : List (String × α)) : List String :=
  d.map Prod.fst

/-- Values stored in objects and passed in payloads.  Python values are
dynamically typed; the runtime only ever distinguishes strings, ints,
lists of strings, timestamps (datetime isoformat strings, carried here as
the rational instant they print) and generated object ids.  A `uuid.uuid4()`
identifier is modelled as `vid n` drawn from a fresh-id supply: distinct
draws are distinct and never collide with caller-supplied strings, which is
what uuid4 provides (up to astronomically improbable collision). -/
inductive Value where
  | str (s : String)
  | vid (n : Nat)
  | int (i : Int)
  | time (t : ℚ)
  | strlist (l : List String)
deriving DecidableEq

/-- An object / payload: a Python dict from field names to values. -/
abbrev Obj := List (String × Value)

instance instDecEqObj : DecidableEq Obj := inferInstance

/-- The state dict of one app: object collections keyed by object type. -/
abbrev AppDict := List (String × List Obj)

instance instDecEqAppDict : DecidableEq AppDict := inferInstance

/-- Python truthiness test (`if not obj_id:`) for the values we model:
empty strings, zero ints and empty lists are falsy. -/
def pyFalsy : Value → Bool
  | .str s => s = ""
  | .vid _ => false
  | .int i => i = 0
  | .time _ => false
  | .strlist l => l.isEmpty

/-- Python `int(x)` on a float/rational: truncation toward zero, which on a
reduced fraction is the T-division of numerator by denominator. -/
def pyInt (q : ℚ) : Int :=
  Int.tdiv q.num q.den

/-- Python `max` over two ints: the first argument on a tie. -/
def zmax (a b : Int) : Int := if a < b then b else a

/-!
## State engine — `src/core/state/engine.py`, class `StateEngine`

`app_states` maps an app name to that app's state dict, whose values (for
the CRUD operations modelled here) are object collections keyed by object
type.  Events fired by `_propagate_event` are recorded in an event log
(the code hands them to listeners; no listener is registered in the model,
which only observes that an event was fired, with its key and data).
`nextId` is the fresh-id supply standing for `uuid.uuid4()`. -/
structure StateEngine where
  app_states : List (String × AppDict)
  nextId : Nat
  events : List (String × String × Obj)
deriving DecidableEq

/-- The freshly constructed engine (`StateEngine.__init__`). -/
def engInit : StateEngine := { app_states := [], nextId := 0, events := [] }

/-- The state dict of an app (empty when the app is unknown). -/
def appDictOf (e : StateEngine) (app : String) : AppDict :=
  (dlookup e.app_states app).getD []

/-- The collection of an object type inside an app (`.get(object_type, [])`). -/
def collObjs (e : StateEngine) (app ty : String) : List Obj :=
  (dlookup (appDictOf e app) ty).getD []

/-- First object of a collection whose `"id"` field equals `oid`
(the lookup loop shared by `read_object`, `update_object`, `delete_object`). -/
def findFirst (objs : List Obj) (oid : Value) : Option Obj :=
  match objs with
  | [] => none
  | o :: rest => if dlookup o "id" = some oid then some o else findFirst rest oid

/-- Replace the first object whose `"id"` equals `oid` by `f` of it;
`none` when no object matches (`update_object`'s loop). -/
def updateFirst (objs : List Obj) (oid : Value) (f : Obj → Obj) : Option (List Obj) :=
  match objs with
  | [] => none
  | o :: rest =>
    if dlookup o "id" = some oid then some (f o :: rest)
    else (updateFirst rest oid f).map (o :: ·)

/-- Remove the first object whose `"id"` equals `oid`; `none` when no object
matches (`delete_object`'s loop with `objects.pop(i)`). -/
def removeFirst (objs : List Obj) (oid : Value) : Option (List Obj) :=
  match objs with
  | [] => none
  | o :: rest =>
    if dlookup o "id" = some oid then some rest
    else (removeFirst rest oid).map (o :: ·)

/-- `StateEngine.create_object`: ensure the app and collection exist, build
`{"id": obj_id, "created_at": now, **data}`, append it, fire a `create`
event, return the id. -/
def create_object (e : StateEngine) (app ty : String) (data : Obj) (now : ℚ) :
    Value × StateEngine :=
  let oid : Value := .vid e.nextId
  let obj : Obj := dmerge [("id", oid), ("created_at", .time now)] data
  let states' := dinsert e.app_states app
    (dinsert (appDictOf e app) ty (collObjs e app ty ++ [obj]))
  (oid, { app_states := states', nextId := e.nextId + 1,
          events := e.events ++ [(app, "create", [("type", .str ty), ("id", oid)])] })

/-- `StateEngine.read_object`: `None` for an unknown app, else the first
object of the collection whose `"id"` matches (a copy in the source; the
model is pure, so no copy is needed). -/
def read_object (e : StateEngine) (app ty : String) (oid : Value) : Option Obj :=
  match dlookup e.app_states app with
  | none => none
  | some appDict => findFirst ((dlookup appDict ty).getD []) oid

/-- `StateEngine.update_object`: `False` for an unknown app or id; otherwise
merge `updates` into the first matching object, stamp `updated_at`, fire an
`update` event and return `True`. -/
def update_object (e : StateEngine) (app ty : String) (oid : Value) (updates : Obj)
    (now : ℚ) : Bool × StateEngine :=
  match dlookup e.app_states app with
  | none => (false, e)
  | some appDict =>
    match updateFirst ((dlookup appDict ty).getD []) oid
        (fun o => dinsert (dmerge o updates) "updated_at" (.time now)) with
    | none => (false, e)
    | some coll' =>
      (true, { e with
        app_states := dinsert e.app_states app (dinsert appDict ty coll'),
        events := e.events ++ [(app, "update", [("type", .str ty), ("id", oid)])] })

/-- `StateEngine.delete_object`: `False` for an unknown app or id; otherwise
remove the first matching object, fire a `delete` event and return `True`. -/
def delete_object (e : StateEngine) (app ty : String) (oid : Value) :
    Bool × StateEngine :=
  match dlookup e.app_states app with
  | none => (false, e)
  | some appDict =>
    match removeFirst ((dlookup appDict ty).getD []) oid with
    | none => (false, e)
    | some coll' =>
      (true, { e with
        app_states := dinsert e.app_states app (dinsert appDict ty coll'),
        events := e.events ++ [(app, "delete", [("type", .str ty), ("id", oid)])] })

/-- `StateEngine.get_app_state(app).get(ty, [])` as used by the `list`
branch of the action dispatcher.  (The source's `defaultdict` inserts an
empty dict for an unknown app before copying; an empty dict is exactly what
the model's total lookup already yields, and no collection changes.) -/
def get_app_state_coll (e : StateEngine) (app ty : String) : List Obj :=
  collObjs e app ty

/-!
## Error simulator — `src/core/errors/simulator.py`, class `ErrorSimulator`
-/

/-- A rate profile entry (`{"requests_per_min": ..., "burst_limit": ...}`). -/
structure RateLimitConf where
  requests_per_min : Int
  burst_limit : Int
deriving DecidableEq

/-- An error dict as returned by `simulate_error` / `_generate_error`:
`{"type", "message", "details", "retry_after"}`. -/
structure Fault where
  type : String
  message : String
  details : Obj
  retry_after : Option Int
deriving DecidableEq

/-- State of `ErrorSimulator`. -/
structure ErrorSimulator where
  error_profile : List (String × ℚ)
  request_counts : List (String × List ℚ)
  rate_limits : List (String × RateLimitConf)
  auth_states : List (String × Bool)
  network_states : List (String × Bool)
deriving DecidableEq

/-- Python `min` over two floats: the first argument on a tie. -/
def qmin (a b : ℚ) : ℚ := if a ≤ b then a else b

/-- The probability table written out in `ErrorSimulator.__init__` and again,
literally identically, as `base_profile` in `set_chaos_mode`; the float
`0.05` of the source is the rational `mkRat 5 100`, and so on. -/
def baselineProfile : List (String × ℚ) :=
  [("rate_limit", mkRat 5 100), ("auth_expired", mkRat 2 100),
   ("network_unreachable", mkRat 3 100), ("schema_error", mkRat 8 100),
   ("partial_failure", mkRat 4 100), ("data_inconsistency", mkRat 2 100),
   ("invalid_input", mkRat 10 100), ("server_error", mkRat 2 100)]

/-- A freshly constructed simulator with the default error profile. -/
def simInit : ErrorSimulator :=
  { error_profile := baselineProfile, request_counts := [], rate_limits := [],
    auth_states := [], network_states := [] }

/-- `ErrorSimulator.configure_rate_limit`: set the profile and make sure the
app has a request log. -/
def configure_rate_limit (s : ErrorSimulator) (app : String) (rpm burst : Int) :
    ErrorSimulator :=
  { s with
    rate_limits := dinsert s.rate_limits app ⟨rpm, burst⟩,
    request_counts :=
      match dlookup s.request_counts app with
      | some _ => s.request_counts
      | none => dinsert s.request_counts app [] }

/-- `ErrorSimulator.set_auth_state`. -/
def set_auth_state (s : ErrorSimulator) (app : String) (b : Bool) : ErrorSimulator :=
  { s with auth_states := dinsert s.auth_states app b }

/-- `ErrorSimulator.set_network_state`. -/
def set_network_state (s : ErrorSimulator) (app : String) (b : Bool) : ErrorSimulator :=
  { s with network_states := dinsert s.network_states app b }

/-- `ErrorSimulator.record_request`: append the current instant to the
app's request log (creating it first when absent). -/
def record_request (s : ErrorSimulator) (app : String) (now : ℚ) : ErrorSimulator :=
  { s with request_counts :=
      dinsert s.request_counts app ((dlookup s.request_counts app).getD [] ++ [now]) }

/-- `ErrorSimulator.check_rate_limit`: prune entries aged 60 s or more,
store the pruned log back, and test the burst (10 s) and per-minute (60 s)
windows.  The first component is `none` when the source would raise a
`KeyError` (rate profile present but no request log — unreachable through
`configure_rate_limit`, which always creates the log). -/
def check_rate_limit (s : ErrorSimulator) (app : String) (now : ℚ) :
    Option Bool × ErrorSimulator :=
  match dlookup s.rate_limits app with
  | none => (some false, s)
  | some limits =>
    match dlookup s.request_counts app with
    | none => (none, s)
    | some log =>
      let pruned := log.filter (fun ts => decide (now - ts < 60))
      let s' := { s with request_counts := dinsert s.request_counts app pruned }
      let recent := pruned.filter (fun ts => decide (now - ts < 10))
      if limits.burst_limit ≤ (recent.length : Int) then (some true, s')
      else if limits.requests_per_min ≤ (pruned.length : Int) then (some true, s')
      else (some false, s')

/-- Python `min` over a list (raises on `[]`, hence `Option`). -/
def pyMin : List ℚ → Option ℚ
  | [] => none
  | x :: xs => some (xs.foldl qmin x)

/-- Walk the probability table in order with the draw sequence
(`for error_type, probability in self.error_profile.items(): if
random.random() < probability`), returning the first kind that fires. -/
def firstFiring (draws : Nat → ℚ) : List (String × ℚ) → Nat → Option String
  | [], _ => none
  | (k, p) :: rest, i => if draws i < p then some k else firstFiring draws rest (i + 1)

/-- The strings accepted by the `ErrorType` enum of `src/core/models.py`;
`ErrorType(error_type)` raises `ValueError` on anything else. -/
def validErrorType (k : String) : Bool :=
  k ∈ ["rate_limit", "auth_expired", "network_unreachable", "schema_error",
       "partial_failure", "data_inconsistency", "invalid_input", "server_error",
       "auth_error"]

/-- `ErrorSimulator._generate_error`: the fixed payload per fired kind, with
the `errors.get(..., default)` fallback for kinds without a template. -/
def generate_error (et app action : String) : Fault :=
  if et = "schema_error" then
    ⟨et, "Invalid input schema",
     [("app", .str app), ("action", .str action), ("field", .str "unknown"),
      ("expected", .str "string")], none⟩
  else if et = "partial_failure" then
    ⟨et, "Partial failure in operation",
     [("app", .str app), ("action", .str action), ("succeeded_items", .int 3),
      ("failed_items", .int 2)], none⟩
  else if et = "data_inconsistency" then
    ⟨et, "Data inconsistency detected",
     [("app", .str app), ("action", .str action), ("conflict_id", .str "12345")], none⟩
  else if et = "invalid_input" then
    ⟨et, "Invalid input provided",
     [("app", .str app), ("action", .str action),
      ("validation_errors", .strlist ["field \x27email\x27 is required"])], none⟩
  else if et = "server_error" then
    ⟨et, "Internal server error",
     [("app", .str app), ("action", .str action), ("error_code", .str "500")], some 5⟩
  else
    ⟨et, "Unknown error", [("app", .str app), ("action", .str action)], none⟩

/-- Outcome of `simulate_error`: a fault, no fault, or an exception escaping
the method (`ValueError` from `min([])` or from `ErrorType(...)`, `KeyError`
from a missing request log). -/
inductive SimOutcome where
  | crash
  | fault (f : Fault)
  | noFault
deriving DecidableEq

/-- `ErrorSimulator.simulate_error`: deterministic network and auth checks,
then the rate-limit check, then the probabilistic walk.  The second
`time.time()` call of the source (in the `retry_after` computation) is the
same instant `now` as the first. -/
def simulate_error (s : ErrorSimulator) (app action : String) (now : ℚ)
    (draws : Nat → ℚ) : SimOutcome × ErrorSimulator :=
  if dlookup s.network_states app = some false then
    (.fault ⟨"network_unreachable", "Network unreachable",
      [("app", .str app), ("action", .str action)], none⟩, s)
  else if dlookup s.auth_states app = some false then
    (.fault ⟨"auth_expired", "Authentication expired",
      [("app", .str app), ("action", .str action)], none⟩, s)
  else
    match check_rate_limit s app now with
    | (none, s') => (.crash, s')
    | (some true, s') =>
      match dlookup s'.request_counts app with
      | none => (.crash, s')
      | some log =>
        match pyMin log with
        | none => (.crash, s')
        | some m =>
          match dlookup s'.rate_limits app with
          | none => (.crash, s')
          | some limits =>
            (.fault ⟨"rate_limit", "Rate limit exceeded",
              [("app", .str app), ("action", .str action),
               ("limit", .int limits.requests_per_min)],
              some (zmax 0 (pyInt (60 - (now - m))))⟩, s')
    | (some false, s') =>
      match firstFiring draws s'.error_profile 0 with
      | none => (.noFault, s')
      | some k =>
        if validErrorType k then (.fault (generate_error k app action), s')
        else (.crash, s')

/-- `ErrorSimulator.set_chaos_mode`: replace the active profile with the
baseline table scaled by `chaos_level` and clamped at 0.95 per kind. -/
def set_chaos_mode (s : ErrorSimulator) (chaos_level : ℚ) : ErrorSimulator :=
  { s with error_profile :=
      baselineProfile.map (fun kv => (kv.1, qmin (mkRat 95 100) (kv.2 * chaos_level))) }

/-!
## Action orchestrator — `src/core/app_runtime.py`, class `AppRuntime`
-/

/-- Boolean test that `p` is an initial segment of `s`. -/
def hasPre : List Char → List Char → Bool
  | [], _ => true
  | _ :: _, [] => false
  | a :: as, b :: bs => a = b && hasPre as bs

/-- Boolean substring containment over character lists. -/
def hasSubL (needle : List Char) : List Char → Bool
  | [] => hasPre needle []
  | c :: rest => hasPre needle (c :: rest) || hasSubL needle rest

/-- Python `sub in s` on strings. -/
def hasSubstr (s sub : String) : Bool :=
  hasSubL sub.toList s.toList

/-- Splitting on the underscore character (Python `s.split("_")`):
consecutive separators yield empty pieces, the empty string yields `[""]`. -/
def splitUnd : List Char → List Char → List String
  | [], acc => [String.mk acc.reverse]
  | c :: rest, acc =>
    if c = '_' then String.mk acc.reverse :: splitUnd rest []
    else splitUnd rest (c :: acc)

/-- Object-type inference of `_execute_action_impl`:
`action_name.split("_")[-1] + "s"`, without the plural `"s"` when the name
contains `"list"`. -/
def objectTypeOf (actionName : String) : String :=
  let last := (splitUnd actionName.toList []).getLastD ""
  if hasSubstr actionName "list" then last else last ++ "s"

/-- Python `l[:n]` for an `int` bound (negative bounds count from the end). -/
def pySlice {α : Type} (l : List α) (n : Int) : List α :=
  if 0 ≤ n then l.take n.toNat else l.take (l.length - (-n).toNat)

/-- The result value produced by `_execute_action_impl`: a flat object dict,
a listing `{"results": ..., "count": ...}`, the pass-through dict
`{"status": "executed", "result": inputs}` of the default branch, or Python
`None` (returned when `read_object` after a successful update finds
nothing — unreachable sequentially). -/
inductive PyResult where
  | obj (o : Obj)
  | listing (results : List Obj) (count : Nat)
  | passthrough (inputs : Obj)
  | null
deriving DecidableEq

/-- The `error` member of a failure envelope. -/
inductive ExecError where
  | notFound (msg : String)
  | fault (f : Fault)
  | schemaViolation (msg : String)
  | executionError (msg : String)
deriving DecidableEq

/-- The result envelope of `execute_action`. -/
inductive Envelope where
  | failure (e : ExecError)
  | success (result : PyResult) (latency_ms : Nat)
deriving DecidableEq

/-- An action as far as the runtime consults it (`core.models.Action`):
its name and latency range.  The JSON schemas are consulted only through
`jsonschema.validate`, whose verdicts the execution environment supplies. -/
structure ActionM where
  name : String
  latency_lo : Nat
  latency_hi : Nat
deriving DecidableEq

/-- An app as far as the runtime consults it (`core.models.App`). -/
structure AppM where
  name : String
  actions : List ActionM

/-- First action of a list with the requested name (`App.get_action` loop). -/
def findAction (n : String) : List ActionM → Option ActionM
  | [] => none
  | act :: rest => if act.name = n then some act else findAction n rest

/-- `App.get_action`: first action with the requested name. -/
def get_action (a : AppM) (n : String) : Option ActionM :=
  findAction n a.actions

/-- Ambient inputs of one `execute_action` call: the current instant, the
`random.random()` draw sequence, the latency drawn by `random.randint`, and
the verdicts of `jsonschema.validate` on the inputs and on the produced
result. -/
structure ExecEnv where
  now : ℚ
  draws : Nat → ℚ
  latency : Nat
  inputValid : Bool
  outputValid : Bool

/-- `AppRuntime._execute_action_impl`: CRUD dispatch on substrings of the
action name.  Returns the result (or the message of a raised exception),
the engine after the call, and the inputs dict after the call — the update
branch mutates the caller's dict through `inputs.pop("id", None)`. -/
def execute_action_impl (eng : StateEngine) (appName actionName : String)
    (inputs : Obj) (now : ℚ) : Except String PyResult × StateEngine × Obj :=
  let object_type := objectTypeOf actionName
  if hasSubstr actionName "create" || hasSubstr actionName "add"
      || hasSubstr actionName "send" then
    let r := create_object eng appName object_type inputs now
    (.ok (.obj (dmerge [("id", r.1), ("status", .str "success")] inputs)), r.2, inputs)
  else if hasSubstr actionName "update" || hasSubstr actionName "edit" then
    let objId? := dlookup inputs "id"
    let inputs' := dremove inputs "id"
    match objId? with
    | none => (.error "Missing \x27id\x27 for update operation", eng, inputs')
    | some v =>
      if pyFalsy v then (.error "Missing \x27id\x27 for update operation", eng, inputs')
      else
        let r := update_object eng appName object_type v inputs' now
        if r.1 then
          match read_object r.2 appName object_type v with
          | some o => (.ok (.obj o), r.2, inputs')
          | none => (.ok .null, r.2, inputs')
        else (.error "Object not found", eng, inputs')
  else if hasSubstr actionName "delete" || hasSubstr actionName "remove" then
    match dlookup inputs "id" with
    | none => (.error "Missing \x27id\x27 for delete operation", eng, inputs)
    | some v =>
      if pyFalsy v then (.error "Missing \x27id\x27 for delete operation", eng, inputs)
      else
        let r := delete_object eng appName object_type v
        if r.1 then (.ok (.obj [("id", v), ("status", .str "deleted")]), r.2, inputs)
        else (.error "Object not found", eng, inputs)
  else if hasSubstr actionName "get" || hasSubstr actionName "fetch" then
    match dlookup inputs "id" with
    | none => (.error "Missing \x27id\x27 for get operation", eng, inputs)
    | some v =>
      if pyFalsy v then (.error "Missing \x27id\x27 for get operation", eng, inputs)
      else
        match read_object eng appName object_type v with
        | some o => (.ok (.obj o), eng, inputs)
        | none => (.error "Object not found", eng, inputs)
  else if hasSubstr actionName "list" then
    let objs := get_app_state_coll eng appName object_type
    match dlookup inputs "limit" with
    | none => (.ok (.listing (pySlice objs 50) objs.length), eng, inputs)
    | some (.int n) => (.ok (.listing (pySlice objs n) objs.length), eng, inputs)
    | some _ => (.error "slice indices must be integers", eng, inputs)
  else
    (.ok (.passthrough inputs), eng, inputs)

/-- `AppRuntime.execute_action`: resolve the action, record the request,
sleep the drawn latency, consult the error simulator, validate the inputs,
dispatch, softly validate the output (a failed output validation only
prints a warning, collected in the last component), and wrap everything in
a result envelope.  The first component is `none` when an exception escapes
`simulate_error` (the only uncaught position in the source). -/
def execute_action (app : AppM) (sim : ErrorSimulator) (eng : StateEngine)
    (actionName : String) (inputs : Obj) (env : ExecEnv) :
    Option Envelope × ErrorSimulator × StateEngine × Obj × List String :=
  match get_action app actionName with
  | none =>
    (some (.failure (.notFound ("Action \x27" ++ actionName ++ "\x27 not found in app \x27"
        ++ app.name ++ "\x27"))), sim, eng, inputs, [])
  | some _action =>
    let sim1 := record_request sim app.name env.now
    match simulate_error sim1 app.name actionName env.now env.draws with
    | (.crash, sim2) => (none, sim2, eng, inputs, [])
    | (.fault f, sim2) => (some (.failure (.fault f)), sim2, eng, inputs, [])
    | (.noFault, sim2) =>
      if env.inputValid then
        match execute_action_impl eng app.name actionName inputs env.now with
        | (.error msg, eng', inputs') =>
          (some (.failure (.executionError ("Action execution failed: " ++ msg))),
           sim2, eng', inputs', [])
        | (.ok r, eng', inputs') =>
          (some (.success r env.latency), sim2, eng', inputs',
           if env.outputValid then []
           else ["Warning: Output validation failed for " ++ actionName])
      else
        (some (.failure (.schemaViolation "Invalid input schema")), sim2, eng, inputs, [])

/-!
## Derived notions used by the specifications
-/

/-- Number of recorded timestamps inside the trailing window of width `w`
ending at `now` (the window test `now - ts < w` is the one of the source). -/
def countWin (log : List ℚ) (now w : ℚ) : Nat :=
  (log.filter (fun ts => decide (now - ts < w))).length

/-- The `"id"` fields of the objects of a collection, in order. -/
def objIds (objs : List Obj) : List (Option Value) :=
  objs.map (fun o => dlookup o "id")

/-- The id invariant of the state store: in every collection the object ids
are pairwise distinct and all drawn from the fresh-id supply consumed so
far. -/
def IdInv (e : StateEngine) : Prop :=
  ∀ app ty, (objIds (collObjs e app ty)).Nodup ∧
    ∀ v ∈ objIds (collObjs e app ty), ∃ n, n < e.nextId ∧ v = some (Value.vid n)

/-!
## Concrete instances used in witnesses and counterexamples
-/

/-- An app with one action named `"act"` (no CRUD keyword: default branch). -/
def appAct : AppM := ⟨"a", [⟨"act", 0, 0⟩]⟩

/-- An app with one action named `"update_task"`. -/
def appUpd : AppM := ⟨"a", [⟨"update_task", 0, 0⟩]⟩

/-- A call environment: instant 100, every draw 1 (no probabilistic fault
fires), latency 7, both schema validations passing. -/
def envStd : ExecEnv := ⟨100, fun _ => 1, 7, true, true⟩

/-- A simulator whose app `"a"` is healthy but one request away from its
per-minute budget, with one expired entry in the log. -/
def simRate : ErrorSimulator :=
  { simInit with
    request_counts := [("a", [0])],
    rate_limits := [("a", ⟨1, 10⟩)],
    auth_states := [("a", true)],
    network_states := [("a", true)] }

/-- A simulator whose app `"a"` has its network flag down. -/
def simNet : ErrorSimulator := set_network_state simInit "a" false

/-- A simulator with rate profile `1/min, burst 1` and one recent entry. -/
def simBudget : ErrorSimulator :=
  { simInit with rate_limits := [("a", ⟨1, 1⟩)], request_counts := [("a", [95])] }

/-- A simulator with rate profile `2/min, burst 1` and an empty log. -/
def simFresh : ErrorSimulator := configure_rate_limit simInit "a" 2 1

/-!
## Dictionary lemmas
-/

@[simp] theorem dlookup_nil {α : Type} (k : String) :
    dlookup ([] : List (String × α)) k = none := rfl

@[simp] theorem dlookup_dinsert_self {α : Type} (d : List (String × α)) (k : String) (v : α) :
    dlookup (dinsert d k v) k = some v := by
  induction d with
  | nil => simp [dinsert, dlookup]
  | cons hd tl ih =>
    obtain ⟨a, b⟩ := hd
    by_cases hak : a = k
    · simp [dinsert, dlookup, hak]
    · simp [dinsert, dlookup, hak, ih]

theorem dlookup_dinsert_ne {α : Type} (d : List (String × α)) (k k' : String) (v : α)
    (h : k' ≠ k) : dlookup (dinsert d k v) k' = dlookup d k' := by
  induction d with
  | nil => simp [dinsert, dlookup, Ne.symm h]
  | cons hd tl ih =>
    obtain ⟨a, b⟩ := hd
    by_cases hak : a = k
    · subst hak
      simp [dinsert, dlookup, Ne.symm h]
    · by_cases hak' : a = k'
      · simp [dinsert, dlookup, hak, hak', h]
      · simp [dinsert, dlookup, hak, hak', ih]

theorem dinsert_dinsert {α : Type} (d : List (String × α)) (k : String) (v w : α) :
    dinsert (dinsert d k v) k w = dinsert d k w := by
  induction d with
  | nil => simp [dinsert]
  | cons hd tl ih =>
    obtain ⟨a, b⟩ := hd
    by_cases hak : a = k
    · simp [dinsert, hak]
    · simp [dinsert, hak, ih]

@[simp] theorem dlookup_dremove_self {α : Type} (d : List (String × α)) (k : String) :
    dlookup (dremove d k) k = none := by
  induction d with
  | nil => simp [dremove]
  | cons hd tl ih =>
    obtain ⟨a, b⟩ := hd
    by_cases hak : a = k
    · simp [dremove, hak, ih]
    · simp [dremove, dlookup, hak, ih]

theorem dlookup_dremove_ne {α : Type} (d : List (String × α)) (k k' : String)
    (h : k' ≠ k) : dlookup (dremove d k) k' = dlookup d k' := by
  induction d with
  | nil => simp [dremove]
  | cons hd tl ih =>
    obtain ⟨a, b⟩ := hd
    by_cases hak : a = k
    · subst hak
      simp [dremove, dlookup, Ne.symm h, ih]
    · by_cases hak' : a = k'
      · simp [dremove, dlookup, hak, hak', h]
      · simp [dremove, dlookup, hak, hak', ih]

theorem dlookup_dmerge_notin {α : Type} (u d : List (String × α)) (k : String)
    (h : k ∉ dkeys u) : dlookup (dmerge d u) k = dlookup d k := by
  induction u generalizing d with
  | nil => simp [dmerge]
  | cons hd tl ih =>
    simp only [dkeys, List.map_cons, List.mem_cons, not_or] at h
    have htl : k ∉ dkeys tl := by simpa [dkeys] using h.2
    have step := ih (dinsert d hd.1 hd.2) htl
    simp only [dmerge, List.foldl_cons] at step ⊢
    rw [step]
    exact dlookup_dinsert_ne d hd.1 k hd.2 h.1

theorem dlookup_dmerge_in {α : Type} (u d : List (String × α)) (k : String) (v : α)
    (hnd : (dkeys u).Nodup) (h : dlookup u k = some v) :
    dlookup (dmerge d u) k = some v := by
  induction u generalizing d with
  | nil => simp [dlookup] at h
  | cons hd tl ih =>
    simp only [dkeys, List.map_cons, List.nodup_cons] at hnd
    by_cases hk : hd.1 = k
    · subst hk
      simp only [dlookup, if_pos rfl] at h
      cases h
      have step : dlookup (dmerge (dinsert d hd.1 hd.2) tl) hd.1
          = dlookup (dinsert d hd.1 hd.2) hd.1 :=
        dlookup_dmerge_notin tl _ hd.1 (by simpa [dkeys] using hnd.1)
      simp only [dmerge, List.foldl_cons] at step ⊢
      rw [step, dlookup_dinsert_self]
    · simp only [dlookup, hk, if_false] at h
      have step := ih (dinsert d hd.1 hd.2) hnd.2 h
      simpa [dmerge] using step

theorem dlookup_eq_none_of_notin {α : Type} (d : List (String × α)) (k : String)
    (h : k ∉ dkeys d) : dlookup d k = none := by
  induction d with
  | nil => rfl
  | cons hd tl ih =>
    obtain ⟨a, b⟩ := hd
    simp only [dkeys, List.map_cons, List.mem_cons, not_or] at h
    have hne : a ≠ k := fun hc => h.1 hc.symm
    simp only [dlookup, hne, if_false]
    exact ih (by simpa [dkeys] using h.2)

theorem notin_of_dlookup_eq_none {α : Type} (d : List (String × α)) (k : String)
    (h : dlookup d k = none) : k ∉ dkeys d := by
  induction d with
  | nil => simp [dkeys]
  | cons hd tl ih =>
    obtain ⟨a, b⟩ := hd
    by_cases hk : a = k
    · simp [dlookup, hk] at h
    · simp only [dlookup, hk, if_false] at h
      simp only [dkeys, List.map_cons, List.mem_cons, not_or]
      exact ⟨fun hc => hk hc.symm, by simpa [dkeys] using ih h⟩

/-!
## Rate-limit window lemmas
-/

theorem filter10_of_filter60 (log : List ℚ) (now : ℚ) :
    (log.filter (fun ts => decide (now - ts < 60))).filter (fun ts => decide (now - ts < 10))
      = log.filter (fun ts => decide (now - ts < 10)) := by
  induction log with
  | nil => rfl
  | cons t rest ih =>
    by_cases h60 : now - t < 60
    · by_cases h10 : now - t < 10 <;> simp [List.filter_cons, h60, h10, ih]
    · have h10 : ¬ now - t < 10 := fun h => h60 (by linarith)
      simp [List.filter_cons, h60, h10, ih]

/-- C2.  For a configured app, `check_rate_limit` prunes entries aged 60 s
or more from the stored log and reports exceeded exactly when the count of
timestamps in the trailing 10 s window reaches the burst limit or the count
in the trailing 60 s window reaches the per-minute budget. -/
theorem check_rate_limit_windows (s : ErrorSimulator) (app : String) (N B : Int)
    (log : List ℚ) (now : ℚ)
    (hconf : dlookup s.rate_limits app = some ⟨N, B⟩)
    (hlog : dlookup s.request_counts app = some log) :
    check_rate_limit s app now =
      (some (decide (B ≤ (countWin log now 10 : Int) ∨ N ≤ (countWin log now 60 : Int))),
       { s with request_counts :=
           dinsert s.request_counts app (log.filter (fun ts => decide (now - ts < 60))) }) := by
  unfold check_rate_limit
  rw [hconf, hlog]
  simp only
  rw [filter10_of_filter60 log now]
  by_cases hb : B ≤ ((log.filter (fun ts => decide (now - ts < 10))).length : Int)
  · simp [hb, countWin]
  · by_cases hn : N ≤ ((log.filter (fun ts => decide (now - ts < 60))).length : Int)
    · simp [hb, hn, countWin]
    · simp [hb, hn, countWin]

/-- Closed instantiation of `check_rate_limit_windows` at a configured
simulator with an empty log. -/
theorem check_rate_limit_windows_witness :
    check_rate_limit simFresh "a" 0 =
      (some (decide ((1 : Int) ≤ (countWin ([] : List ℚ) 0 10 : Int)
          ∨ (2 : Int) ≤ (countWin ([] : List ℚ) 0 60 : Int))),
       { simFresh with request_counts := (dinsert simFresh.request_counts "a"
           (([] : List ℚ).filter (fun ts => decide ((0 : ℚ) - ts < 60)))) }) :=
  check_rate_limit_windows simFresh "a" 2 1 [] 0 (by decide) (by decide)

/-!
## Fault-decision lemmas
-/

theorem check_rate_limit_snd_fields (s : ErrorSimulator) (app : String) (now : ℚ) :
    (check_rate_limit s app now).2.error_profile = s.error_profile
    ∧ (check_rate_limit s app now).2.rate_limits = s.rate_limits
    ∧ (check_rate_limit s app now).2.auth_states = s.auth_states
    ∧ (check_rate_limit s app now).2.network_states = s.network_states := by
  unfold check_rate_limit
  cases h1 : dlookup s.rate_limits app with
  | none => simp
  | some limits =>
    cases h2 : dlookup s.request_counts app with
    | none => simp
    | some log =>
      simp only
      split_ifs <;> simp

theorem firstFiring_mem (draws : Nat → ℚ) (p : List (String × ℚ)) :
    ∀ i k, firstFiring draws p i = some k → ∃ q, (k, q) ∈ p := by
  induction p with
  | nil => intro i k h; simp [firstFiring] at h
  | cons hd tl ih =>
    intro i k h
    obtain ⟨a, b⟩ := hd
    by_cases hfire : draws i < b
    · simp only [firstFiring, if_pos hfire, Option.some.injEq] at h
      exact ⟨b, by simp [h]⟩
    · simp only [firstFiring, if_neg hfire] at h
      obtain ⟨q, hq⟩ := ih (i + 1) k h
      exact ⟨q, List.mem_cons_of_mem _ hq⟩

theorem check_true_pruned (s : ErrorSimulator) (app : String) (now : ℚ) (N B : Int)
    (log : List ℚ) (s₁ : ErrorSimulator)
    (hconf : dlookup s.rate_limits app = some ⟨N, B⟩)
    (hlog : dlookup s.request_counts app = some log)
    (hN : 1 ≤ N) (hB : 1 ≤ B)
    (hrate : check_rate_limit s app now = (some true, s₁)) :
    s₁ = { s with request_counts := (dinsert s.request_counts app
        (log.filter (fun ts => decide (now - ts < 60)))) }
    ∧ log.filter (fun ts => decide (now - ts < 60)) ≠ [] := by
  rw [check_rate_limit_windows s app N B log now hconf hlog, Prod.mk.injEq,
    Option.some.injEq] at hrate
  obtain ⟨hdec, hs⟩ := hrate
  refine ⟨hs.symm, ?_⟩
  have hP := of_decide_eq_true hdec
  rcases hP with h10 | h60
  · have hlen : 1 ≤ (countWin log now 10 : Int) := le_trans hB h10
    have : countWin log now 10 ≠ 0 := by
      intro hz
      rw [hz] at hlen
      exact absurd hlen (by norm_num)
    have hne : (log.filter (fun ts => decide (now - ts < 10))) ≠ [] := by
      intro hnil
      exact this (by simp [countWin, hnil])
    obtain ⟨x, hx⟩ := List.exists_mem_of_ne_nil _ hne
    have hx' := List.mem_filter.mp hx
    have hx60 : decide (now - x < 60) = true := by
      have := of_decide_eq_true hx'.2
      exact decide_eq_true (by linarith)
    intro hnil
    have : x ∈ log.filter (fun ts => decide (now - ts < 60)) :=
      List.mem_filter.mpr ⟨hx'.1, hx60⟩
    simp [hnil] at this
  · have hlen : 1 ≤ (countWin log now 60 : Int) := le_trans hN h60
    have : countWin log now 60 ≠ 0 := by
      intro hz
      rw [hz] at hlen
      exact absurd hlen (by norm_num)
    intro hnil
    exact this (by simp [countWin, hnil])

/-- C1.  `simulate_error` follows the fixed precedence: a network flag set
to unavailable always yields `network_unreachable`; otherwise an
unauthenticated flag yields `auth_expired`; otherwise an exceeded rate
limit yields `rate_limit`; otherwise the probability table is walked in its
fixed order and the first kind whose draw fires is returned, or no fault.
The hypotheses record that any configured rate profile has positive limits
(the `ge=1` constraints of `RateLimitProfile`) together with a request log
(`configure_rate_limit` always creates one), and that the profile keys are
legal `ErrorType` values. -/
theorem simulate_error_precedence (s : ErrorSimulator) (app action : String) (now : ℚ)
    (draws : Nat → ℚ)
    (hconf : ∀ c, dlookup s.rate_limits app = some c →
      (1 ≤ c.requests_per_min ∧ 1 ≤ c.burst_limit)
      ∧ ∃ log, dlookup s.request_counts app = some log)
    (hvalid : ∀ kv ∈ s.error_profile, validErrorType kv.1 = true) :
    (dlookup s.network_states app = some false →
      simulate_error s app action now draws
        = (.fault ⟨"network_unreachable", "Network unreachable",
            [("app", .str app), ("action", .str action)], none⟩, s))
    ∧ (dlookup s.network_states app ≠ some false →
        dlookup s.auth_states app = some false →
      simulate_error s app action now draws
        = (.fault ⟨"auth_expired", "Authentication expired",
            [("app", .str app), ("action", .str action)], none⟩, s))
    ∧ (∀ s₁, dlookup s.network_states app ≠ some false →
        dlookup s.auth_states app ≠ some false →
        check_rate_limit s app now = (some true, s₁) →
      ∃ f, simulate_error s app action now draws = (.fault f, s₁) ∧ f.type = "rate_limit")
    ∧ (∀ s₁, dlookup s.network_states app ≠ some false →
        dlookup s.auth_states app ≠ some false →
        check_rate_limit s app now = (some false, s₁) →
      simulate_error s app action now draws
        = (match firstFiring draws s.error_profile 0 with
           | none => (.noFault, s₁)
           | some k => (.fault (generate_error k app action), s₁))) := by
  refine ⟨?_, ?_, ?_, ?_⟩
  · intro hnet
    unfold simulate_error
    rw [if_pos hnet]
  · intro hnet hauth
    unfold simulate_error
    rw [if_neg hnet, if_pos hauth]
  · intro s₁ hnet hauth hrate
    cases hc : dlookup s.rate_limits app with
    | none =>
      exfalso
      unfold check_rate_limit at hrate
      rw [hc] at hrate
      simp at hrate
    | some c =>
      obtain ⟨N, B⟩ := c
      obtain ⟨⟨hN, hB⟩, log, hlog⟩ := hconf ⟨N, B⟩ hc
      obtain ⟨hs₁, hne⟩ := check_true_pruned s app now N B log s₁ hc hlog hN hB hrate
      subst hs₁
      unfold simulate_error
      rw [if_neg hnet, if_neg hauth, hrate]
      dsimp only
      rw [dlookup_dinsert_self]
      cases hft : log.filter (fun ts => decide (now - ts < 60)) with
      | nil => exact absurd hft hne
      | cons m rest =>
        dsimp only [pyMin]
        rw [hc]
        exact ⟨_, rfl, rfl⟩
  · intro s₁ hnet hauth hrate
    unfold simulate_error
    rw [if_neg hnet, if_neg hauth, hrate]
    have hprof : s₁.error_profile = s.error_profile := by
      have hfe := (check_rate_limit_snd_fields s app now).1
      rw [hrate] at hfe
      exact hfe
    dsimp only
    rw [hprof]
    cases hf : firstFiring draws s.error_profile 0 with
    | none => rfl
    | some k =>
      obtain ⟨q, hq⟩ := firstFiring_mem draws s.error_profile 0 k hf
      simp [hvalid (k, q) hq]

/-- Closed instantiation of `simulate_error_precedence` at a simulator whose
network flag for the app is down. -/
theorem simulate_error_precedence_witness :
    (dlookup simNet.network_states "a" = some false →
      simulate_error simNet "a" "act" 100 (fun _ => 1)
        = (.fault ⟨"network_unreachable", "Network unreachable",
            [("app", .str "a"), ("action", .str "act")], none⟩, simNet))
    ∧ (dlookup simNet.network_states "a" ≠ some false →
        dlookup simNet.auth_states "a" = some false →
      simulate_error simNet "a" "act" 100 (fun _ => 1)
        = (.fault ⟨"auth_expired", "Authentication expired",
            [("app", .str "a"), ("action", .str "act")], none⟩, simNet))
    ∧ (∀ s₁, dlookup simNet.network_states "a" ≠ some false →
        dlookup simNet.auth_states "a" ≠ some false →
        check_rate_limit simNet "a" 100 = (some true, s₁) →
      ∃ f, simulate_error simNet "a" "act" 100 (fun _ => 1) = (.fault f, s₁)
        ∧ f.type = "rate_limit")
    ∧ (∀ s₁, dlookup simNet.network_states "a" ≠ some false →
        dlookup simNet.auth_states "a" ≠ some false →
        check_rate_limit simNet "a" 100 = (some false, s₁) →
      simulate_error simNet "a" "act" 100 (fun _ => 1)
        = (match firstFiring (fun _ => 1) simNet.error_profile 0 with
           | none => (.noFault, s₁)
           | some k => (.fault (generate_error k "a" "act"), s₁))) :=
  simulate_error_precedence simNet "a" "act" 100 (fun _ => 1)
    (fun c h => by simp [simNet, set_network_state, simInit] at h)
    (by decide)

/-!
## Minimum and retry-after lemmas
-/

theorem qmin_le_left (a b : ℚ) : qmin a b ≤ a := by
  unfold qmin
  split_ifs with h
  · exact le_refl a
  · exact (not_le.mp h).le

theorem qmin_le_right (a b : ℚ) : qmin a b ≤ b := by
  unfold qmin
  split_ifs with h
  · exact h
  · exact le_refl b

theorem foldl_qmin_le_init (l : List ℚ) : ∀ a, l.foldl qmin a ≤ a := by
  induction l with
  | nil => intro a; exact le_refl a
  | cons x xs ih =>
    intro a
    calc xs.foldl qmin (qmin a x) ≤ qmin a x := ih (qmin a x)
    _ ≤ a := qmin_le_left a x

theorem foldl_qmin_le_mem (l : List ℚ) : ∀ a x, x ∈ l → l.foldl qmin a ≤ x := by
  induction l with
  | nil => intro a x hx; simp at hx
  | cons y ys ih =>
    intro a x hx
    rcases List.mem_cons.mp hx with h | h
    · subst h
      calc ys.foldl qmin (qmin a x) ≤ qmin a x := foldl_qmin_le_init ys (qmin a x)
      _ ≤ x := qmin_le_right a x
    · exact ih (qmin a y) x h

theorem foldl_qmin_mem (l : List ℚ) : ∀ a, l.foldl qmin a = a ∨ l.foldl qmin a ∈ l := by
  induction l with
  | nil => intro a; exact Or.inl rfl
  | cons y ys ih =>
    intro a
    rcases ih (qmin a y) with h | h
    · by_cases hay : a ≤ y
      · left
        simp only [List.foldl_cons]
        rw [h]
        simp [qmin, hay]
      · right
        simp only [List.foldl_cons]
        rw [h]
        simp [qmin, hay]
    · right
      simp only [List.foldl_cons]
      exact List.mem_cons_of_mem _ h

theorem pyMin_spec (l : List ℚ) (m : ℚ) (h : pyMin l = some m) :
    m ∈ l ∧ ∀ x ∈ l, m ≤ x := by
  cases l with
  | nil => simp [pyMin] at h
  | cons x xs =>
    simp only [pyMin, Option.some.injEq] at h
    subst h
    constructor
    · rcases foldl_qmin_mem xs x with h | h
      · rw [h]; exact List.mem_cons_self x xs
      · exact List.mem_cons_of_mem _ h
    · intro y hy
      rcases List.mem_cons.mp hy with h | h
      · subst h; exact foldl_qmin_le_init xs y
      · exact foldl_qmin_le_mem xs x y h

theorem zmax_zero_nonneg (x : Int) : 0 ≤ zmax 0 x := by
  unfold zmax
  split_ifs with h
  · exact h.le
  · exact le_refl 0

/-- C7.  A rate-limit fault returned by `simulate_error` carries
`retry_after = max(0, int(60 - (now - m)))` where `m` is the oldest
non-expired recorded timestamp (equivalently `max(0, int((m + 60) - now))`,
the truncated number of seconds until `m` leaves the 60 s window), and this
value is never negative. -/
theorem rate_limit_retry_after (s : ErrorSimulator) (app action : String) (now : ℚ)
    (draws : Nat → ℚ) (N B : Int) (log : List ℚ) (s₁ : ErrorSimulator)
    (hconf : dlookup s.rate_limits app = some ⟨N, B⟩) (hN : 1 ≤ N) (hB : 1 ≤ B)
    (hlog : dlookup s.request_counts app = some log)
    (hnet : dlookup s.network_states app ≠ some false)
    (hauth : dlookup s.auth_states app ≠ some false)
    (hrate : check_rate_limit s app now = (some true, s₁)) :
    ∃ m, pyMin (log.filter (fun ts => decide (now - ts < 60))) = some m
      ∧ m ∈ log ∧ now - m < 60
      ∧ (∀ t ∈ log, now - t < 60 → m ≤ t)
      ∧ simulate_error s app action now draws
          = (.fault ⟨"rate_limit", "Rate limit exceeded",
              [("app", .str app), ("action", .str action), ("limit", .int N)],
              some (zmax 0 (pyInt (60 - (now - m))))⟩, s₁)
      ∧ zmax 0 (pyInt (60 - (now - m))) = zmax 0 (pyInt ((m + 60) - now))
      ∧ 0 ≤ zmax 0 (pyInt (60 - (now - m))) := by
  obtain ⟨hs₁, hne⟩ := check_true_pruned s app now N B log s₁ hconf hlog hN hB hrate
  cases hmin : pyMin (log.filter (fun ts => decide (now - ts < 60))) with
  | none =>
    exfalso
    cases hp : log.filter (fun ts => decide (now - ts < 60)) with
    | nil => exact hne hp
    | cons a b =>
      rw [hp] at hmin
      simp [pyMin] at hmin
  | some m₀ =>
    obtain ⟨hmem, hlb⟩ := pyMin_spec _ _ hmin
    have hmem' := List.mem_filter.mp hmem
    refine ⟨m₀, rfl, hmem'.1, of_decide_eq_true hmem'.2, ?_, ?_, ?_, ?_⟩
    · intro t ht h60
      exact hlb t (List.mem_filter.mpr ⟨ht, decide_eq_true h60⟩)
    · subst hs₁
      unfold simulate_error
      rw [if_neg hnet, if_neg hauth, hrate]
      dsimp only
      rw [dlookup_dinsert_self]
      dsimp only
      rw [hmin]
      dsimp only
      rw [hconf]
    · have harg : 60 - (now - m₀) = (m₀ + 60) - now := by ring
      rw [harg]
    · exact zmax_zero_nonneg _

/-- Closed instantiation of `rate_limit_retry_after`: one recent timestamp
95 at instant 100, budget one per minute. -/
theorem rate_limit_retry_after_witness :
    ∃ m, pyMin (([95] : List ℚ).filter (fun ts => decide ((100 : ℚ) - ts < 60))) = some m
      ∧ m ∈ ([95] : List ℚ) ∧ (100 : ℚ) - m < 60
      ∧ (∀ t ∈ ([95] : List ℚ), (100 : ℚ) - t < 60 → m ≤ t)
      ∧ simulate_error simBudget "a" "act" 100 (fun _ => 1)
          = (.fault ⟨"rate_limit", "Rate limit exceeded",
              [("app", .str "a"), ("action", .str "act"), ("limit", .int 1)],
              some (zmax 0 (pyInt (60 - ((100 : ℚ) - m))))⟩, simBudget)
      ∧ zmax 0 (pyInt (60 - ((100 : ℚ) - m))) = zmax 0 (pyInt ((m + 60) - 100))
      ∧ 0 ≤ zmax 0 (pyInt (60 - ((100 : ℚ) - m))) :=
  rate_limit_retry_after simBudget "a" "act" 100 (fun _ => 1) 1 1 [95] simBudget
    (by decide) (by decide) (by decide) (by decide) (by decide) (by decide)
    (by norm_num [check_rate_limit, simBudget, simInit, dlookup, dinsert, List.filter])

/-!
## Chaos-level lemmas
-/

theorem set_chaos_zero_entry (s : ErrorSimulator) :
    ∀ kv ∈ (set_chaos_mode s 0).error_profile, kv.2 = 0 := by
  intro kv hkv
  simp only [set_chaos_mode, List.mem_map] at hkv
  obtain ⟨ab, hab, hkv⟩ := hkv
  cases hkv
  show qmin (mkRat 95 100) (ab.2 * 0) = 0
  rw [mul_zero]
  decide

theorem firstFiring_all_zero (draws : Nat → ℚ) (hdr : ∀ i, 0 ≤ draws i)
    (p : List (String × ℚ)) (hp : ∀ kv ∈ p, kv.2 = 0) :
    ∀ i, firstFiring draws p i = none := by
  induction p with
  | nil => intro i; rfl
  | cons e tl ih =>
    intro i
    obtain ⟨k, q⟩ := e
    have hq : q = 0 := hp (k, q) (List.mem_cons_self _ _)
    subst hq
    simp only [firstFiring, if_neg (not_lt.mpr (hdr i))]
    exact ih (fun kv hkv => hp kv (List.mem_cons_of_mem _ hkv)) (i + 1)

/-- C8.  `set_chaos_mode m` (for a multiplier in `[0, 2]`) replaces the
active profile by the fixed baseline scaled by `m` and clamped at 0.95 per
kind; repeated calls depend only on the last multiplier; and with `m = 0`
every probability is 0, so the probabilistic walk can never fire for any
draw sequence produced by `random.random()` (draws `≥ 0`). -/
theorem set_chaos_spec (s : ErrorSimulator) (m : ℚ) (h0 : 0 ≤ m) (h2 : m ≤ 2) :
    (set_chaos_mode s m).error_profile
        = baselineProfile.map (fun kv => (kv.1, qmin (mkRat 95 100) (kv.2 * m)))
    ∧ (∀ m₁, set_chaos_mode (set_chaos_mode s m₁) m = set_chaos_mode s m)
    ∧ (∀ kv ∈ (set_chaos_mode s m).error_profile, kv.2 ≤ mkRat 95 100)
    ∧ (∀ kv ∈ (set_chaos_mode s 0).error_profile, kv.2 = 0)
    ∧ (∀ draws : Nat → ℚ, (∀ i, 0 ≤ draws i) →
        firstFiring draws (set_chaos_mode s 0).error_profile 0 = none) := by
  refine ⟨rfl, fun m₁ => rfl, ?_, set_chaos_zero_entry s, ?_⟩
  · intro kv hkv
    simp only [set_chaos_mode, List.mem_map] at hkv
    obtain ⟨ab, hab, hkv⟩ := hkv
    cases hkv
    exact qmin_le_left _ _
  · intro draws hdr
    exact firstFiring_all_zero draws hdr _ (set_chaos_zero_entry s) 0

/-- Closed instantiation of `set_chaos_spec` at the default simulator with
multiplier 1. -/
theorem set_chaos_spec_witness :
    (set_chaos_mode simInit 1).error_profile
        = baselineProfile.map (fun kv => (kv.1, qmin (mkRat 95 100) (kv.2 * 1)))
    ∧ (∀ m₁, set_chaos_mode (set_chaos_mode simInit m₁) 1 = set_chaos_mode simInit 1)
    ∧ (∀ kv ∈ (set_chaos_mode simInit 1).error_profile, kv.2 ≤ mkRat 95 100)
    ∧ (∀ kv ∈ (set_chaos_mode simInit 0).error_profile, kv.2 = 0)
    ∧ (∀ draws : Nat → ℚ, (∀ i, 0 ≤ draws i) →
        firstFiring draws (set_chaos_mode simInit 0).error_profile 0 = none) :=
  set_chaos_spec simInit 1 (by decide) (by decide)

/-!
## State-store lookup-loop lemmas
-/

theorem findFirst_eq_none (objs : List Obj) (oid : Value)
    (h : ∀ o ∈ objs, dlookup o "id" ≠ some oid) : findFirst objs oid = none := by
  induction objs with
  | nil => rfl
  | cons o rest ih =>
    simp only [findFirst, if_neg (h o (List.mem_cons_self o rest))]
    exact ih (fun o' ho' => h o' (List.mem_cons_of_mem _ ho'))

theorem updateFirst_eq_none (objs : List Obj) (oid : Value) (f : Obj → Obj)
    (h : ∀ o ∈ objs, dlookup o "id" ≠ some oid) : updateFirst objs oid f = none := by
  induction objs with
  | nil => rfl
  | cons o rest ih =>
    simp only [updateFirst, if_neg (h o (List.mem_cons_self o rest))]
    rw [ih (fun o' ho' => h o' (List.mem_cons_of_mem _ ho'))]
    rfl

theorem removeFirst_eq_none (objs : List Obj) (oid : Value)
    (h : ∀ o ∈ objs, dlookup o "id" ≠ some oid) : removeFirst objs oid = none := by
  induction objs with
  | nil => rfl
  | cons o rest ih =>
    simp only [removeFirst, if_neg (h o (List.mem_cons_self o rest))]
    rw [ih (fun o' ho' => h o' (List.mem_cons_of_mem _ ho'))]
    rfl

theorem collObjs_of_lookup (e : StateEngine) (app ty : String) (ad : AppDict)
    (ha : dlookup e.app_states app = some ad) :
    collObjs e app ty = (dlookup ad ty).getD [] := by
  simp [collObjs, appDictOf, ha]

/-- C6.  On an id that is not present in the collection, `read_object`
returns `None` and `update_object` / `delete_object` return `False` and
leave the whole engine — all collections and the event log — unchanged;
none of the three raises (they are total functions of the model). -/
theorem notfound_noop (e : StateEngine) (app ty : String) (oid : Value) (updates : Obj)
    (now : ℚ)
    (habs : ∀ o ∈ collObjs e app ty, dlookup o "id" ≠ some oid) :
    read_object e app ty oid = none
    ∧ update_object e app ty oid updates now = (false, e)
    ∧ delete_object e app ty oid = (false, e) := by
  cases ha : dlookup e.app_states app with
  | none =>
    refine ⟨?_, ?_, ?_⟩ <;> simp [read_object, update_object, delete_object, ha]
  | some ad =>
    rw [collObjs_of_lookup e app ty ad ha] at habs
    refine ⟨?_, ?_, ?_⟩
    · simp only [read_object, ha]
      exact findFirst_eq_none _ _ habs
    · simp only [update_object, ha]
      rw [updateFirst_eq_none _ _ _ habs]
    · simp only [delete_object, ha]
      rw [removeFirst_eq_none _ _ habs]

/-- Closed instantiation of `notfound_noop` on the empty engine. -/
theorem notfound_noop_witness :
    read_object engInit "a" "t" (Value.vid 0) = none
    ∧ update_object engInit "a" "t" (Value.vid 0) [("x", Value.str "y")] 0
        = (false, engInit)
    ∧ delete_object engInit "a" "t" (Value.vid 0) = (false, engInit) :=
  notfound_noop engInit "a" "t" (Value.vid 0) [("x", Value.str "y")] 0 (by decide)

/-!
## Collection lemmas for create / update / delete
-/

theorem collObjs_create_self (e : StateEngine) (app ty : String) (data : Obj) (now : ℚ) :
    collObjs (create_object e app ty data now).2 app ty
      = collObjs e app ty
        ++ [dmerge [("id", Value.vid e.nextId), ("created_at", Value.time now)] data] := by
  simp [create_object, collObjs, appDictOf]

theorem collObjs_create_other (e : StateEngine) (app ty a t : String) (data : Obj)
    (now : ℚ) (h : ¬(a = app ∧ t = ty)) :
    collObjs (create_object e app ty data now).2 a t = collObjs e a t := by
  by_cases happ : a = app
  · subst happ
    have ht : t ≠ ty := fun hc => h ⟨rfl, hc⟩
    simp only [create_object, collObjs, appDictOf]
    rw [dlookup_dinsert_self]
    simp only [Option.getD_some]
    rw [dlookup_dinsert_ne _ _ _ _ ht]
  · simp only [create_object, collObjs, appDictOf]
    rw [dlookup_dinsert_ne _ _ _ _ happ]

theorem create_obj_id (data : Obj) (n : Nat) (now : ℚ) (hid : "id" ∉ dkeys data) :
    dlookup (dmerge [("id", Value.vid n), ("created_at", Value.time now)] data) "id"
      = some (Value.vid n) := by
  rw [dlookup_dmerge_notin data _ "id" hid]
  rfl

theorem updateFirst_objIds (oid : Value) (f : Obj → Obj)
    (hf : ∀ o, dlookup (f o) "id" = dlookup o "id") :
    ∀ (objs objs' : List Obj), updateFirst objs oid f = some objs' →
      objIds objs' = objIds objs := by
  intro objs
  induction objs with
  | nil => intro objs' h; simp [updateFirst] at h
  | cons o rest ih =>
    intro objs' h
    by_cases ho : dlookup o "id" = some oid
    · simp only [updateFirst, if_pos ho, Option.some.injEq] at h
      subst h
      simp [objIds, hf o]
    · simp only [updateFirst, if_neg ho] at h
      cases hr : updateFirst rest oid f with
      | none => rw [hr] at h; exact Option.noConfusion h
      | some rest' =>
        rw [hr] at h
        simp only [Option.map_some', Option.some.injEq] at h
        subst h
        have hid := ih rest' hr
        simp only [objIds, List.map_cons] at hid ⊢
        rw [hid]

theorem removeFirst_sublist (oid : Value) :
    ∀ (objs objs' : List Obj), removeFirst objs oid = some objs' → objs'.Sublist objs := by
  intro objs
  induction objs with
  | nil => intro objs' h; simp [removeFirst] at h
  | cons o rest ih =>
    intro objs' h
    by_cases ho : dlookup o "id" = some oid
    · simp only [removeFirst, if_pos ho, Option.some.injEq] at h
      subst h
      exact List.sublist_cons_self o rest
    · simp only [removeFirst, if_neg ho] at h
      cases hr : removeFirst rest oid with
      | none => rw [hr] at h; exact Option.noConfusion h
      | some rest' =>
        rw [hr] at h
        simp only [Option.map_some', Option.some.injEq] at h
        subst h
        exact List.Sublist.cons₂ o (ih rest' hr)

theorem findFirst_append_of_none (l₁ l₂ : List Obj) (oid : Value)
    (h : ∀ o ∈ l₁, dlookup o "id" ≠ some oid) :
    findFirst (l₁ ++ l₂) oid = findFirst l₂ oid := by
  induction l₁ with
  | nil => rfl
  | cons o rest ih =>
    simp only [List.cons_append, findFirst, if_neg (h o (List.mem_cons_self o rest))]
    exact ih (fun o' ho' => h o' (List.mem_cons_of_mem _ ho'))

theorem removeFirst_append_of_none (l₁ l₂ : List Obj) (oid : Value)
    (h : ∀ o ∈ l₁, dlookup o "id" ≠ some oid) :
    removeFirst (l₁ ++ l₂) oid = (removeFirst l₂ oid).map (l₁ ++ ·) := by
  induction l₁ with
  | nil =>
    cases hr : removeFirst l₂ oid <;> simp [hr]
  | cons o rest ih =>
    simp only [List.cons_append, removeFirst, if_neg (h o (List.mem_cons_self o rest)),
      List.append_eq]
    rw [ih (fun o' ho' => h o' (List.mem_cons_of_mem _ ho'))]
    cases hr : removeFirst l₂ oid <;> simp [hr]

theorem vid_fresh (e : StateEngine) (app ty : String) (hinv : IdInv e) :
    some (Value.vid e.nextId) ∉ objIds (collObjs e app ty) := by
  intro hmem
  obtain ⟨n, hn, heq⟩ := (hinv app ty).2 _ hmem
  injection heq with h1
  injection h1 with h2
  omega

theorem coll_ids_ne (e : StateEngine) (app ty : String) (hinv : IdInv e) :
    ∀ o ∈ collObjs e app ty, dlookup o "id" ≠ some (Value.vid e.nextId) := by
  intro o ho hc
  exact vid_fresh e app ty hinv (hc ▸ List.mem_map_of_mem _ ho)

theorem create_nextId (e : StateEngine) (app ty : String) (data : Obj) (now : ℚ) :
    (create_object e app ty data now).2.nextId = e.nextId + 1 := rfl

theorem update_object_collObjs (e : StateEngine) (app ty : String) (oid : Value)
    (updates : Obj) (now : ℚ) (hid : "id" ∉ dkeys updates) :
    (∀ a t, objIds (collObjs (update_object e app ty oid updates now).2 a t)
      = objIds (collObjs e a t))
    ∧ (update_object e app ty oid updates now).2.nextId = e.nextId := by
  cases ha : dlookup e.app_states app with
  | none => simp [update_object, ha]
  | some ad =>
    cases hu : updateFirst ((dlookup ad ty).getD []) oid
        (fun o => dinsert (dmerge o updates) "updated_at" (.time now)) with
    | none => simp [update_object, ha, hu]
    | some coll' =>
      have hf : ∀ o : Obj,
          dlookup (dinsert (dmerge o updates) "updated_at" (Value.time now)) "id"
            = dlookup o "id" := by
        intro o
        rw [dlookup_dinsert_ne _ _ _ _ (by decide : ("id" : String) ≠ "updated_at")]
        exact dlookup_dmerge_notin updates o "id" hid
      have hids := updateFirst_objIds oid _ hf _ coll' hu
      constructor
      · intro a t
        by_cases hat : a = app ∧ t = ty
        · obtain ⟨h1, h2⟩ := hat
          subst h1; subst h2
          have hc1 : collObjs (update_object e a t oid updates now).2 a t = coll' := by
            simp only [update_object, ha, hu]
            simp [collObjs, appDictOf]
          rw [hc1, hids, collObjs_of_lookup e a t ad ha]
        · have hc1 : collObjs (update_object e app ty oid updates now).2 a t
              = collObjs e a t := by
            simp only [update_object, ha, hu]
            by_cases happ : a = app
            · subst happ
              have ht : t ≠ ty := fun hc => hat ⟨rfl, hc⟩
              simp only [collObjs, appDictOf]
              rw [dlookup_dinsert_self]
              simp only [Option.getD_some]
              rw [dlookup_dinsert_ne _ _ _ _ ht, ha]
              rfl
            · simp only [collObjs, appDictOf]
              rw [dlookup_dinsert_ne _ _ _ _ happ]
          rw [hc1]
      · simp [update_object, ha, hu]

theorem delete_object_collObjs (e : StateEngine) (app ty : String) (oid : Value) :
    (∀ a t, (objIds (collObjs (delete_object e app ty oid).2 a t)).Sublist
      (objIds (collObjs e a t)))
    ∧ (delete_object e app ty oid).2.nextId = e.nextId := by
  cases ha : dlookup e.app_states app with
  | none => simp [delete_object, ha]
  | some ad =>
    cases hr : removeFirst ((dlookup ad ty).getD []) oid with
    | none => simp [delete_object, ha, hr]
    | some coll' =>
      have hsub := removeFirst_sublist oid _ coll' hr
      constructor
      · intro a t
        by_cases hat : a = app ∧ t = ty
        · obtain ⟨h1, h2⟩ := hat
          subst h1; subst h2
          have hc1 : collObjs (delete_object e a t oid).2 a t = coll' := by
            simp only [delete_object, ha, hr]
            simp [collObjs, appDictOf]
          rw [hc1, collObjs_of_lookup e a t ad ha]
          exact hsub.map _
        · have hc1 : collObjs (delete_object e app ty oid).2 a t = collObjs e a t := by
            simp only [delete_object, ha, hr]
            by_cases happ : a = app
            · subst happ
              have ht : t ≠ ty := fun hc => hat ⟨rfl, hc⟩
              simp only [collObjs, appDictOf]
              rw [dlookup_dinsert_self]
              simp only [Option.getD_some]
              rw [dlookup_dinsert_ne _ _ _ _ ht, ha]
              rfl
            · simp only [collObjs, appDictOf]
              rw [dlookup_dinsert_ne _ _ _ _ happ]
          rw [hc1]
      · simp [delete_object, ha, hr]

theorem idInv_engInit : IdInv engInit := by
  intro app ty
  constructor
  · simp [collObjs, appDictOf, engInit, objIds, dlookup]
  · intro v hv
    simp [collObjs, appDictOf, engInit, objIds, dlookup] at hv

/-- C4 (amended).  The empty store satisfies the id invariant — unique ids
drawn from the fresh-id supply in every collection — and the invariant is
preserved by `create_object`, `update_object` and `delete_object` whenever
the caller-supplied fields / updates mapping does not itself bind the
reserved key `"id"`; moreover `update_object` never changes any stored
object's id under that condition. -/
theorem id_uniqueness_invariant :
    IdInv engInit
    ∧ (∀ e app ty data now, IdInv e → "id" ∉ dkeys data →
        IdInv (create_object e app ty data now).2)
    ∧ (∀ e app ty oid updates now, "id" ∉ dkeys updates →
        (∀ a t, objIds (collObjs (update_object e app ty oid updates now).2 a t)
          = objIds (collObjs e a t))
        ∧ (IdInv e → IdInv (update_object e app ty oid updates now).2))
    ∧ (∀ e app ty oid, IdInv e → IdInv (delete_object e app ty oid).2) := by
  refine ⟨idInv_engInit, ?_, ?_, ?_⟩
  · intro e app ty data now hinv hid
    intro a t
    rw [create_nextId]
    by_cases hat : a = app ∧ t = ty
    · obtain ⟨h1, h2⟩ := hat
      subst h1; subst h2
      rw [collObjs_create_self]
      constructor
      · simp only [objIds, List.map_append, List.map_cons, List.map_nil]
        rw [create_obj_id data e.nextId now hid]
        rw [List.nodup_append]
        refine ⟨(hinv a t).1, List.nodup_singleton _, ?_⟩
        intro x hx hx2
        simp only [List.mem_singleton] at hx2
        subst hx2
        exact vid_fresh e a t hinv hx
      · intro v hv
        simp only [objIds, List.map_append, List.map_cons, List.map_nil] at hv
        rcases List.mem_append.mp hv with h | h
        · obtain ⟨n, hn, he⟩ := (hinv a t).2 v h
          exact ⟨n, by omega, he⟩
        · simp only [List.mem_singleton] at h
          subst h
          rw [create_obj_id data e.nextId now hid]
          exact ⟨e.nextId, by omega, rfl⟩
    · rw [collObjs_create_other e app ty a t data now hat]
      refine ⟨(hinv a t).1, ?_⟩
      intro v hv
      obtain ⟨n, hn, he⟩ := (hinv a t).2 v hv
      exact ⟨n, by omega, he⟩
  · intro e app ty oid updates now hid
    have h := update_object_collObjs e app ty oid updates now hid
    refine ⟨h.1, ?_⟩
    intro hinv a t
    rw [h.1 a t, h.2]
    exact hinv a t
  · intro e app ty oid hinv
    have h := delete_object_collObjs e app ty oid
    intro a t
    have hsub := h.1 a t
    rw [h.2]
    constructor
    · exact (hinv a t).1.sublist hsub
    · intro v hv
      exact (hinv a t).2 v (hsub.subset hv)

/-- Closed instantiation of `id_uniqueness_invariant`: the invariant holds
after creating an object with a caller field in the empty store. -/
theorem id_uniqueness_invariant_witness :
    IdInv (create_object engInit "a" "t" [("x", Value.str "v")] 0).2 :=
  id_uniqueness_invariant.2.1 engInit "a" "t" [("x", Value.str "v")] 0
    id_uniqueness_invariant.1 (by decide)

/-- Counterexample to C4 as stated: `update_object` with an updates mapping
that binds `"id"` changes the stored object's id — the object created with
id `vid 0` is afterwards only readable under the caller-written id `"y"`. -/
theorem update_changes_id_counterexample :
    (update_object (create_object engInit "a" "t" [] 0).2 "a" "t" (Value.vid 0)
        [("id", Value.str "y")] 1).1 = true
    ∧ read_object (update_object (create_object engInit "a" "t" [] 0).2 "a" "t" (Value.vid 0)
        [("id", Value.str "y")] 1).2 "a" "t" (Value.vid 0) = none
    ∧ read_object (update_object (create_object engInit "a" "t" [] 0).2 "a" "t" (Value.vid 0)
        [("id", Value.str "y")] 1).2 "a" "t" (Value.str "y")
      = some [("id", Value.str "y"), ("created_at", Value.time 0),
              ("updated_at", Value.time 1)] :=
  ⟨by decide, by decide, by decide⟩

/-- Counterexample to C3 as stated: with a fields mapping that itself binds
`"id"`, `create_object` stores the caller's id (the dict literal
`{"id": ..., "created_at": ..., **data}` lets `data` win), so reading back
the returned id finds nothing. -/
theorem create_read_id_override_counterexample :
    read_object (create_object engInit "a" "t" [("id", Value.str "x")] 0).2 "a" "t"
      (create_object engInit "a" "t" [("id", Value.str "x")] 0).1 = none := by
  decide

/-- C3 (amended).  For a fields mapping with distinct keys that does not
bind `"id"`: create-then-read returns the object, whose fields are the
input fields plus the fresh id and a `created_at` stamp (the input value
winning if the input itself binds `created_at`); delete-then-read on that
id reports deleted and then not-found. -/
theorem create_read_delete_roundtrip (e : StateEngine) (app ty : String) (data : Obj)
    (now : ℚ) (hinv : IdInv e) (hnd : (dkeys data).Nodup) (hid : "id" ∉ dkeys data) :
    (create_object e app ty data now).1 = Value.vid e.nextId
    ∧ ∃ o,
      read_object (create_object e app ty data now).2 app ty (Value.vid e.nextId) = some o
      ∧ dlookup o "id" = some (Value.vid e.nextId)
      ∧ dlookup o "created_at" = some ((dlookup data "created_at").getD (Value.time now))
      ∧ (∀ k, k ≠ "id" → k ≠ "created_at" → dlookup o k = dlookup data k)
      ∧ (delete_object (create_object e app ty data now).2 app ty (Value.vid e.nextId)).1
          = true
      ∧ read_object (delete_object (create_object e app ty data now).2 app ty
          (Value.vid e.nextId)).2 app ty (Value.vid e.nextId) = none := by
  have hfail := coll_ids_ne e app ty hinv
  have hobjid := create_obj_id data e.nextId now hid
  refine ⟨rfl,
    dmerge [("id", Value.vid e.nextId), ("created_at", Value.time now)] data,
    ?_, hobjid, ?_, ?_, ?_, ?_⟩
  · simp only [read_object, create_object, dlookup_dinsert_self, Option.getD_some]
    rw [findFirst_append_of_none _ _ _ hfail]
    simp [findFirst, hobjid]
  · cases hc : dlookup data "created_at" with
    | none =>
      rw [dlookup_dmerge_notin data _ _ (notin_of_dlookup_eq_none data _ hc)]
      simp [dlookup]
    | some v =>
      rw [dlookup_dmerge_in data _ _ v hnd hc]
      simp
  · intro k hk1 hk2
    cases hc : dlookup data k with
    | none =>
      rw [dlookup_dmerge_notin data _ _ (notin_of_dlookup_eq_none data _ hc)]
      simp [dlookup, Ne.symm hk1, Ne.symm hk2]
    | some v =>
      rw [dlookup_dmerge_in data _ _ v hnd hc]
  · simp only [delete_object, create_object, dlookup_dinsert_self, Option.getD_some]
    rw [removeFirst_append_of_none _ _ _ hfail]
    simp [removeFirst, hobjid]
  · simp only [delete_object, create_object, dlookup_dinsert_self, Option.getD_some]
    rw [removeFirst_append_of_none _ _ _ hfail]
    simp only [removeFirst, hobjid, if_pos, Option.map_some']
    simp only [read_object, dlookup_dinsert_self, Option.getD_some, List.append_nil]
    exact findFirst_eq_none _ _ hfail

/-- Closed instantiation of `create_read_delete_roundtrip` on the empty
store with one caller field. -/
theorem create_read_delete_roundtrip_witness :
    (create_object engInit "a" "t" [("name", Value.str "bob")] 0).1 = Value.vid engInit.nextId
    ∧ ∃ o,
      read_object (create_object engInit "a" "t" [("name", Value.str "bob")] 0).2 "a" "t"
          (Value.vid engInit.nextId) = some o
      ∧ dlookup o "id" = some (Value.vid engInit.nextId)
      ∧ dlookup o "created_at"
          = some ((dlookup [("name", Value.str "bob")] "created_at").getD (Value.time 0))
      ∧ (∀ k, k ≠ "id" → k ≠ "created_at" →
          dlookup o k = dlookup [("name", Value.str "bob")] k)
      ∧ (delete_object (create_object engInit "a" "t" [("name", Value.str "bob")] 0).2 "a" "t"
          (Value.vid engInit.nextId)).1 = true
      ∧ read_object (delete_object
          (create_object engInit "a" "t" [("name", Value.str "bob")] 0).2 "a" "t"
          (Value.vid engInit.nextId)).2 "a" "t" (Value.vid engInit.nextId) = none :=
  create_read_delete_roundtrip engInit "a" "t" [("name", Value.str "bob")] 0
    idInv_engInit (by decide) (by decide)

/-!
## Fault-path frame lemmas
-/

theorem check_rate_limit_snd_cases (s : ErrorSimulator) (app : String) (now : ℚ) :
    (check_rate_limit s app now).2 = s
    ∨ (check_rate_limit s app now).2
      = { s with request_counts := (dinsert s.request_counts app
          (((dlookup s.request_counts app).getD []).filter
            (fun ts => decide (now - ts < 60)))) } := by
  unfold check_rate_limit
  cases h1 : dlookup s.rate_limits app with
  | none => exact Or.inl rfl
  | some limits =>
    cases h2 : dlookup s.request_counts app with
    | none => exact Or.inl rfl
    | some log =>
      right
      dsimp only
      split_ifs <;> rfl

theorem simulate_error_snd (s : ErrorSimulator) (app action : String) (now : ℚ)
    (draws : Nat → ℚ) :
    (simulate_error s app action now draws).2 = s
    ∨ (simulate_error s app action now draws).2
      = { s with request_counts := (dinsert s.request_counts app
          (((dlookup s.request_counts app).getD []).filter
            (fun ts => decide (now - ts < 60)))) } := by
  unfold simulate_error
  by_cases hn : dlookup s.network_states app = some false
  · rw [if_pos hn]; exact Or.inl rfl
  · rw [if_neg hn]
    by_cases ha : dlookup s.auth_states app = some false
    · rw [if_pos ha]; exact Or.inl rfl
    · rw [if_neg ha]
      have hc := check_rate_limit_snd_cases s app now
      rcases hch : check_rate_limit s app now with ⟨b, s'⟩
      rw [hch] at hc
      dsimp only at hc
      cases b with
      | none => dsimp only; exact hc
      | some bb =>
        cases bb with
        | true =>
          dsimp only
          cases dlookup s'.request_counts app with
          | none => dsimp only; exact hc
          | some log =>
            dsimp only
            cases pyMin log with
            | none => dsimp only; exact hc
            | some m =>
              dsimp only
              cases dlookup s'.rate_limits app with
              | none => dsimp only; exact hc
              | some limits => dsimp only; exact hc
        | false =>
          dsimp only
          cases firstFiring draws s'.error_profile 0 with
          | none => dsimp only; exact hc
          | some k =>
            dsimp only
            split_ifs <;> exact hc

/-- C5 (amended).  When the fault decision returns a fault during
`execute_action`, the call returns `success: false` with that fault and
stops before input validation and before any state-store operation: the
engine, the caller's inputs and the warning log are untouched, the
simulator keeps its flags, rate profiles and probability table, and its
request log for the app either merely gained the recorded timestamp or —
when the decision reached the rate-limit check — gained it and dropped the
entries aged 60 s or more. -/
theorem fault_short_circuit (app : AppM) (sim : ErrorSimulator) (eng : StateEngine)
    (actionName : String) (inputs : Obj) (env : ExecEnv) (act : ActionM) (f : Fault)
    (sim₂ : ErrorSimulator)
    (hact : get_action app actionName = some act)
    (hf : simulate_error (record_request sim app.name env.now) app.name actionName env.now
        env.draws = (.fault f, sim₂)) :
    execute_action app sim eng actionName inputs env
      = (some (.failure (.fault f)), sim₂, eng, inputs, [])
    ∧ sim₂.rate_limits = sim.rate_limits
    ∧ sim₂.auth_states = sim.auth_states
    ∧ sim₂.network_states = sim.network_states
    ∧ sim₂.error_profile = sim.error_profile
    ∧ (sim₂.request_counts
        = dinsert sim.request_counts app.name
            ((dlookup sim.request_counts app.name).getD [] ++ [env.now])
      ∨ sim₂.request_counts
        = dinsert sim.request_counts app.name
            (((dlookup sim.request_counts app.name).getD [] ++ [env.now]).filter
              (fun ts => decide (env.now - ts < 60)))) := by
  have h1 : execute_action app sim eng actionName inputs env
      = (some (.failure (.fault f)), sim₂, eng, inputs, []) := by
    unfold execute_action
    rw [hact]
    dsimp only
    rw [hf]
  have hs₂ := congrArg Prod.snd hf
  dsimp only at hs₂
  rcases simulate_error_snd (record_request sim app.name env.now) app.name actionName
      env.now env.draws with hcase | hcase
  · rw [hcase] at hs₂
    subst hs₂
    exact ⟨h1, rfl, rfl, rfl, rfl, Or.inl rfl⟩
  · rw [hcase] at hs₂
    subst hs₂
    refine ⟨h1, rfl, rfl, rfl, rfl, Or.inr ?_⟩
    simp only [record_request, dlookup_dinsert_self, Option.getD_some, dinsert_dinsert]

/-- Counterexample to C5's parenthetical as stated: on a rate-limit fault
the request log does not merely gain the recorded timestamp — the expired
entry 0 is pruned by the check. -/
theorem fault_log_pruned_counterexample :
    (execute_action appAct simRate engInit "act" [] envStd).1
      = some (.failure (.fault ⟨"rate_limit", "Rate limit exceeded",
          [("app", Value.str "a"), ("action", Value.str "act"), ("limit", Value.int 1)],
          some 60⟩))
    ∧ (execute_action appAct simRate engInit "act" [] envStd).2.2.1 = engInit
    ∧ (execute_action appAct simRate engInit "act" [] envStd).2.1.request_counts
      = [("a", [100])]
    ∧ [("a", ([100] : List ℚ))]
      ≠ dinsert simRate.request_counts "a"
          ((dlookup simRate.request_counts "a").getD [] ++ [envStd.now]) := by
  have h : execute_action appAct simRate engInit "act" [] envStd
      = (some (.failure (.fault ⟨"rate_limit", "Rate limit exceeded",
          [("app", Value.str "a"), ("action", Value.str "act"), ("limit", Value.int 1)],
          some 60⟩)),
         { simRate with request_counts := [("a", [100])] }, engInit, [], []) := by
    norm_num [execute_action, simulate_error, check_rate_limit, record_request, simRate,
      simInit, appAct, envStd, get_action, findAction, dlookup, dinsert, pyMin, pyInt,
      zmax, qmin, List.filter, List.foldl]
  refine ⟨by rw [h], by rw [h], by rw [h], by decide⟩

/-- Closed instantiation of `fault_short_circuit` at a network-down app. -/
theorem fault_short_circuit_witness :
    execute_action appAct simNet engInit "act" [] envStd
      = (some (.failure (.fault ⟨"network_unreachable", "Network unreachable",
          [("app", Value.str "a"), ("action", Value.str "act")], none⟩)),
         record_request simNet "a" envStd.now, engInit, [], [])
    ∧ (record_request simNet "a" envStd.now).rate_limits = simNet.rate_limits
    ∧ (record_request simNet "a" envStd.now).auth_states = simNet.auth_states
    ∧ (record_request simNet "a" envStd.now).network_states = simNet.network_states
    ∧ (record_request simNet "a" envStd.now).error_profile = simNet.error_profile
    ∧ ((record_request simNet "a" envStd.now).request_counts
        = dinsert simNet.request_counts "a"
            ((dlookup simNet.request_counts "a").getD [] ++ [envStd.now])
      ∨ (record_request simNet "a" envStd.now).request_counts
        = dinsert simNet.request_counts "a"
            (((dlookup simNet.request_counts "a").getD [] ++ [envStd.now]).filter
              (fun ts => decide (envStd.now - ts < 60)))) :=
  fault_short_circuit appAct simNet engInit "act" [] envStd ⟨"act", 0, 0⟩
    ⟨"network_unreachable", "Network unreachable",
      [("app", Value.str "a"), ("action", Value.str "act")], none⟩
    (record_request simNet "a" envStd.now) (by decide) (by decide)

/-!
## Output-validation and dispatch lemmas
-/

/-- C9.  A failed output validation is soft: whenever a call returns a
success envelope under a passing output validation, the same call under a
failing output validation returns the identical envelope — same result,
same latency, same simulator, engine and inputs — and only adds the logged
warning. -/
theorem output_validation_soft (app : AppM) (sim : ErrorSimulator) (eng : StateEngine)
    (actionName : String) (inputs : Obj) (env : ExecEnv) (r : PyResult) (l : Nat)
    (sim' : ErrorSimulator) (eng' : StateEngine) (inp' : Obj)
    (h : execute_action app sim eng actionName inputs { env with outputValid := true }
        = (some (.success r l), sim', eng', inp', [])) :
    execute_action app sim eng actionName inputs { env with outputValid := false }
      = (some (.success r l), sim', eng', inp',
         ["Warning: Output validation failed for " ++ actionName]) := by
  unfold execute_action at h ⊢
  cases hga : get_action app actionName with
  | none =>
    rw [hga] at h
    dsimp only at h
    exact absurd h (by simp)
  | some act =>
    rw [hga] at h
    dsimp only at h ⊢
    rcases hse : simulate_error (record_request sim app.name env.now) app.name actionName
        env.now env.draws with ⟨oc, sim₂⟩
    rw [hse] at h
    cases oc with
    | crash => exact absurd h (by simp)
    | fault f => exact absurd h (by simp)
    | noFault =>
      dsimp only at h ⊢
      by_cases hiv : env.inputValid = true
      · rw [if_pos hiv] at h ⊢
        rcases himpl : execute_action_impl eng app.name actionName inputs env.now
            with ⟨res, eng₀, inp₀⟩
        rw [himpl] at h
        cases res with
        | error msg => exact absurd h (by simp)
        | ok r₀ =>
          dsimp only at h ⊢
          simp only [Prod.mk.injEq, Option.some.injEq, Envelope.success.injEq] at h
          obtain ⟨⟨hr, hl⟩, hs, he, hi, -⟩ := h
          subst hr; subst hl; subst hs; subst he; subst hi
          simp
      · rw [if_neg hiv] at h
        exact absurd h (by simp)

/-- Closed instantiation of `output_validation_soft` at a default-branch
action on a healthy simulator. -/
theorem output_validation_soft_witness :
    execute_action appAct simInit engInit "act" [] { envStd with outputValid := false }
      = (some (.success (.passthrough []) 7), record_request simInit "a" 100, engInit, [],
         ["Warning: Output validation failed for " ++ "act"]) :=
  output_validation_soft appAct simInit engInit "act" [] envStd (.passthrough []) 7
    (record_request simInit "a" 100) engInit [] (by decide)

theorem update_object_false (e : StateEngine) (app ty : String) (oid : Value)
    (updates : Obj) (now : ℚ) (h : (update_object e app ty oid updates now).1 = false) :
    (update_object e app ty oid updates now).2 = e := by
  unfold update_object at h ⊢
  cases ha : dlookup e.app_states app with
  | none => rfl
  | some ad =>
    rw [ha] at h
    dsimp only at h ⊢
    cases hu : updateFirst ((dlookup ad ty).getD []) oid
        (fun o => dinsert (dmerge o updates) "updated_at" (Value.time now)) with
    | none => rfl
    | some coll' =>
      rw [hu] at h
      exact absurd h (by simp)

/-- C10 (amended).  On any call that reaches CRUD dispatch (action found, no
simulated fault, input validation passed) of an action whose name contains
`"update"` or `"edit"` but none of `"create"`, `"add"`, `"send"`, the
caller's inputs dict afterwards no longer binds `"id"` (all other keys are
untouched), and when the popped id was present and truthy the engine is the
result of merging exactly the id-less fields into the stored object. -/
theorem update_pops_id (app : AppM) (sim : ErrorSimulator) (eng : StateEngine)
    (actionName : String) (inputs : Obj) (env : ExecEnv) (act : ActionM)
    (sim₂ : ErrorSimulator)
    (hact : get_action app actionName = some act)
    (hupd : (hasSubstr actionName "update" || hasSubstr actionName "edit") = true)
    (hnc : hasSubstr actionName "create" = false)
    (hna : hasSubstr actionName "add" = false)
    (hns : hasSubstr actionName "send" = false)
    (hse : simulate_error (record_request sim app.name env.now) app.name actionName env.now
        env.draws = (.noFault, sim₂))
    (hval : env.inputValid = true) :
    dlookup (execute_action app sim eng actionName inputs env).2.2.2.1 "id" = none
    ∧ (∀ k, k ≠ "id" →
        dlookup (execute_action app sim eng actionName inputs env).2.2.2.1 k
          = dlookup inputs k)
    ∧ (∀ v, dlookup inputs "id" = some v → pyFalsy v = false →
        (execute_action app sim eng actionName inputs env).2.2.1
          = (update_object eng app.name (objectTypeOf actionName) v (dremove inputs "id")
              env.now).2) := by
  rcases himpl : execute_action_impl eng app.name actionName inputs env.now
      with ⟨res, eng₀, inp₀⟩
  have hexec : (execute_action app sim eng actionName inputs env).2.2.2.1 = inp₀
      ∧ (execute_action app sim eng actionName inputs env).2.2.1 = eng₀ := by
    unfold execute_action
    rw [hact]
    dsimp only
    rw [hse]
    dsimp only
    rw [if_pos hval]
    rw [himpl]
    cases res <;> exact ⟨rfl, rfl⟩
  unfold execute_action_impl at himpl
  rw [hnc, hna, hns, hupd] at himpl
  rw [if_neg (by simp), if_pos rfl] at himpl
  dsimp only at himpl
  have hfacts : inp₀ = dremove inputs "id"
      ∧ (∀ v, dlookup inputs "id" = some v → pyFalsy v = false →
          eng₀ = (update_object eng app.name (objectTypeOf actionName) v
            (dremove inputs "id") env.now).2) := by
    split at himpl
    · rename_i hlv
      simp only [Prod.mk.injEq] at himpl
      refine ⟨himpl.2.2.symm, ?_⟩
      intro v hv
      rw [hlv] at hv
      exact absurd hv (by simp)
    · rename_i v₀ hlv
      split at himpl
      · rename_i hfal
        simp only [Prod.mk.injEq] at himpl
        refine ⟨himpl.2.2.symm, ?_⟩
        intro v hv hvf
        rw [hlv] at hv
        injection hv with hv
        subst hv
        rw [hfal] at hvf
        exact absurd hvf (by simp)
      · rename_i hfal
        split at himpl
        · rename_i hr1
          split at himpl
          · rename_i o hro
            simp only [Prod.mk.injEq] at himpl
            refine ⟨himpl.2.2.symm, ?_⟩
            intro v hv hvf
            rw [hlv] at hv
            injection hv with hv
            subst hv
            exact himpl.2.1.symm
          · rename_i hro
            simp only [Prod.mk.injEq] at himpl
            refine ⟨himpl.2.2.symm, ?_⟩
            intro v hv hvf
            rw [hlv] at hv
            injection hv with hv
            subst hv
            exact himpl.2.1.symm
        · rename_i hr1
          simp only [Prod.mk.injEq] at himpl
          refine ⟨himpl.2.2.symm, ?_⟩
          intro v hv hvf
          rw [hlv] at hv
          injection hv with hv
          subst hv
          have hfalse : (update_object eng app.name (objectTypeOf actionName) v₀
              (dremove inputs "id") env.now).1 = false := by
            cases hres : (update_object eng app.name (objectTypeOf actionName) v₀
                (dremove inputs "id") env.now).1 with
            | false => rfl
            | true => exact absurd hres hr1
          rw [← himpl.2.1, update_object_false _ _ _ _ _ _ hfalse]

  refine ⟨?_, ?_, ?_⟩
  · rw [hexec.1, hfacts.1]
    exact dlookup_dremove_self inputs "id"
  · intro k hk
    rw [hexec.1, hfacts.1]
    exact dlookup_dremove_ne inputs "id" k hk
  · intro v hv hvf
    rw [hexec.2]
    exact hfacts.2 v hv hvf

/-- Counterexample to C10 as stated: when the call is short-circuited by a
simulated fault (network down), the caller's inputs dict still binds
`"id"` after `execute_action` returns. -/
theorem update_inputs_kept_on_fault_counterexample :
    dlookup (execute_action appUpd simNet engInit "update_task"
        [("id", Value.str "1")] envStd).2.2.2.1 "id" = some (Value.str "1") := by
  decide

/-- Closed instantiation of `update_pops_id` on the empty store (the update
then fails with not-found, but the pop side effect has happened). -/
theorem update_pops_id_witness :
    dlookup (execute_action appUpd simInit engInit "update_task"
        [("id", Value.str "1"), ("x", Value.str "2")] envStd).2.2.2.1 "id" = none
    ∧ (∀ k, k ≠ "id" →
        dlookup (execute_action appUpd simInit engInit "update_task"
          [("id", Value.str "1"), ("x", Value.str "2")] envStd).2.2.2.1 k
          = dlookup [("id", Value.str "1"), ("x", Value.str "2")] k)
    ∧ (∀ v, dlookup [("id", Value.str "1"), ("x", Value.str "2")] "id" = some v →
        pyFalsy v = false →
        (execute_action appUpd simInit engInit "update_task"
          [("id", Value.str "1"), ("x", Value.str "2")] envStd).2.2.1
          = (update_object engInit "a" (objectTypeOf "update_task") v
              (dremove [("id", Value.str "1"), ("x", Value.str "2")] "id") envStd.now).2) :=
  update_pops_id appUpd simInit engInit "update_task"
    [("id", Value.str "1"), ("x", Value.str "2")] envStd ⟨"update_task", 0, 0⟩
    (record_request simInit "a" 100)
    (by decide) (by decide) (by decide) (by decide) (by decide) (by decide) rfl

end ZapSim
